import Mathlib

/-!
Shallow embedding of the timer-state-synchronization and persistence core of the
Time-management-assistant browser extension.

The embedding covers:
* the JavaScript numeric helpers the code relies on (`||` defaulting, `Math.round`,
  `parseInt` including its `NaN` result on unparseable strings),
* `StorageManager` (the record ledger: add/update/delete and the two daily sums),
* the background service worker (`background.js`: `startTimer`, `pauseTimer`,
  `clearTimer`, `getTimerStatus` and the per-second persistence tick),
* the UI-side `TimerManager` (`startTimer`, `pauseTimer`, `resumeTimer`, `endTimer`
  and the per-second display-refresh tick),
* `SettingsManager` category management (`addWorkType`, `deleteWorkType`),
* a combined small-step system semantics tying the UI, the background worker, the
  two persisted snapshots and the record ledger together.

Machine integers are modelled as `Int` (JavaScript epoch-millisecond timestamps and
minute counts stay far below 2^53, where `Number` arithmetic is exact), and the
`NaN`-propagation of `parseInt` is modelled explicitly by `JSNum`.
-/

/-- Models the JavaScript expression `a || b` on numbers: `0` is falsy, every other
number is truthy. -/
def jsOrInt (a b : Int) : Int :=
  if a = 0 then b else a

/-- Models reading a JavaScript variable that is either `null` or a number in a
numeric context: `null` coerces to `0`. -/
def optToNum (o : Option Int) : Int :=
  o.getD 0

/-- Models `Math.round(ms / (1000 * 60))` for an integer `ms`: `Math.round x`
is `⌊x + 1/2⌋` (ties round toward positive infinity), so on the rational
`ms / 60000` it equals the floor division `(ms + 30000).fdiv 60000`. -/
def jsRound (ms : Int) : Int :=
  (ms + 30000).fdiv 60000

/-- A JavaScript number that is either an integer or `NaN`.  `NaN` is absorbing
for arithmetic. -/
inductive JSNum
  | int (n : Int)
  | nan
deriving DecidableEq, Repr

/-- JavaScript `+` on `JSNum`: `NaN` is absorbing. -/
def JSNum.add : JSNum → JSNum → JSNum
  | .int a, .int b => .int (a + b)
  | _, _ => .nan

/-- JavaScript `-` on `JSNum`: `NaN` is absorbing. -/
def JSNum.sub : JSNum → JSNum → JSNum
  | .int a, .int b => .int (a - b)
  | _, _ => .nan

/-- The value stored in a record's `duration` field.  The application writes
integer numbers, but `localStorage` round-trips arbitrary JSON, so the field can
also be absent (`missing`, covering `undefined`/`null`) or a string. -/
inductive Dur
  | missing
  | num (n : Int)
  | str (s : String)
deriving DecidableEq, Repr

/-- Value of a decimal digit character (code points 48–57). -/
def digitVal (c : Char) : Option Nat :=
  let n := c.toNat
  if 48 ≤ n ∧ n ≤ 57 then some (n - 48) else none

/-- Value of a hexadecimal digit character: decimal digits, or the letter ranges
`a`–`f` (code points 97–102, value `n − 87`) and `A`–`F` (65–70, value `n − 55`). -/
def hexVal (c : Char) : Option Nat :=
  let n := c.toNat
  if 48 ≤ n ∧ n ≤ 57 then some (n - 48)
  else if 97 ≤ n ∧ n ≤ 102 then some (n - 87)
  else if 65 ≤ n ∧ n ≤ 70 then some (n - 55)
  else none

/-- Parses the longest prefix of digits (in the given base); the accumulator is
`none` while no digit has been consumed, so a string without any leading digit
parses to `none` (JavaScript `NaN`).  Trailing non-digit characters are ignored,
exactly as `parseInt` does. -/
def parseDigits (f : Char → Option Nat) (base : Nat) : List Char → Option Nat → Option Nat
  | [], acc => acc
  | c :: cs, acc =>
    match f c with
    | some d => parseDigits f base cs (some (acc.getD 0 * base + d))
    | none => acc

/-- Parses an unsigned `parseInt` body: either a `0x`/`0X` hexadecimal literal or
a decimal digit run. -/
def jsParseUnsigned : List Char → Option Nat
  | '0' :: 'x' :: rest => parseDigits hexVal 16 rest none
  | '0' :: 'X' :: rest => parseDigits hexVal 16 rest none
  | cs => parseDigits digitVal 10 cs none

/-- Models JavaScript `parseInt(s)` (radix auto-detection): leading whitespace is
skipped, an optional sign is consumed, then the longest digit run is read;
if no digit is found the result is `NaN`. -/
def jsParseInt (s : String) : JSNum :=
  let cs := s.data.dropWhile (fun c => c == ' ' || c == '\t' || c == '\n' || c == '\r')
  match cs with
  | '-' :: rest =>
    match jsParseUnsigned rest with
    | some n => JSNum.int (-(n : Int))
    | none => JSNum.nan
  | '+' :: rest =>
    match jsParseUnsigned rest with
    | some n => JSNum.int n
    | none => JSNum.nan
  | _ =>
    match jsParseUnsigned cs with
    | some n => JSNum.int n
    | none => JSNum.nan

/-- Models `parseInt(record.duration || 0)` from `StorageManager`: an absent
field (`undefined`, falsy) and the number `0` default to `0`; a number parses to
itself (`parseInt` of an integer number is the number); the empty string is
falsy and defaults to `0`; any other string goes through `parseInt` and can be
`NaN`. -/
def durToNum : Dur → JSNum
  | .missing => .int 0
  | .num n => .int n
  | .str s => if s = "" then .int 0 else jsParseInt s

/-- A work record as built by callers of `StorageManager.addRecord`, before the
id is assigned (`endTimer`'s timed record or the manual-add form's record). -/
structure RecordData where
  date : String
  startTime : String
  endTime : String
  duration : Dur
  content : String
  type : String
deriving DecidableEq, Repr

/-- A record as it sits in the persisted `timeTracker_records` list: the caller's
fields plus the id `addRecord` assigned. -/
structure StoredRecord extends RecordData where
  id : Int
deriving DecidableEq, Repr

/-- Result of a `StorageManager` record mutation: the record list afterwards,
whether `saveRecords` was invoked (a storage write happened), and the truthiness
of the returned value. -/
structure StoreOpResult where
  stored : List StoredRecord
  wrote : Bool
  ok : Bool
deriving DecidableEq, Repr

/-- Models `StorageManager.addRecord`: `record.id = Date.now()` (the clock value
at the call), push, save the full list. -/
def StorageManager.addRecord (records : List StoredRecord) (record : RecordData)
    (now : Int) : List StoredRecord :=
  records ++ [⟨record, now⟩]

/-- Models `StorageManager.deleteRecord`: filter the id out; only when the length
changed is the new list saved (truthy result), otherwise nothing is written and
`false` is returned. -/
def StorageManager.deleteRecord (records : List StoredRecord) (id : Int) : StoreOpResult :=
  let newRecords := records.filter (fun r => r.id != id)
  if newRecords.length ≠ records.length then ⟨newRecords, true, true⟩
  else ⟨records, false, false⟩

/-- Replace the first record carrying `id` by its patched version (`findIndex`
followed by `records[index] = { ...records[index], ...updates }`); `none` when
the id is absent (`findIndex` returned `-1`). -/
def StorageManager.replaceFirst (id : Int) (patch : StoredRecord → StoredRecord) :
    List StoredRecord → Option (List StoredRecord)
  | [] => none
  | r :: rs =>
    if r.id = id then some (patch r :: rs)
    else (StorageManager.replaceFirst id patch rs).map (fun l => r :: l)

/-- Models `StorageManager.updateRecord`: on a found id the spread-merge
(`patch`) replaces the record and the list is saved; on an absent id nothing is
written and `false` is returned. -/
def StorageManager.updateRecord (records : List StoredRecord) (id : Int)
    (patch : StoredRecord → StoredRecord) : StoreOpResult :=
  match StorageManager.replaceFirst id patch records with
  | some rs => ⟨rs, true, true⟩
  | none => ⟨records, false, false⟩

/-- Models `StorageManager.getRecordsByDate`. -/
def StorageManager.getRecordsByDate (records : List StoredRecord) (date : String) :
    List StoredRecord :=
  records.filter (fun r => r.date == date)

/-- One `reduce` step of the daily sums: `total + parseInt(record.duration || 0)`. -/
def sumStep (acc : JSNum) (r : StoredRecord) : JSNum :=
  acc.add (durToNum r.duration)

/-- Models `StorageManager.getTotalTimeByDate`: sum the parsed durations of the
records of that date, starting from `0`. -/
def StorageManager.getTotalTimeByDate (records : List StoredRecord) (date : String) : JSNum :=
  (StorageManager.getRecordsByDate records date).foldl sumStep (JSNum.int 0)

/-- Models `StorageManager.getWorkTimeExcludingLifeByDate`: same sum restricted
to the records whose type is not `"生活"`. -/
def StorageManager.getWorkTimeExcludingLifeByDate (records : List StoredRecord)
    (date : String) : JSNum :=
  ((StorageManager.getRecordsByDate records date).filter (fun r => r.type != "生活")).foldl
    sumStep (JSNum.int 0)

/-- Sum of the parsed durations of the records of a date whose type is `"生活"`,
with the same parsing as the two ledger sums (the subtrahend in the relation
between the two daily sums). -/
def lifeTimeByDate (records : List StoredRecord) (date : String) : JSNum :=
  ((StorageManager.getRecordsByDate records date).filter (fun r => r.type == "生活")).foldl
    sumStep (JSNum.int 0)

/-- The persisted/in-memory timer snapshot `{ isRunning, startTime, elapsedTime }`. -/
structure TimerSnapshot where
  isRunning : Bool
  startTime : Int
  elapsedTime : Int
deriving DecidableEq, Repr

/-- The `data` payload of a `START_TIMER` message: `{ startTime, elapsedTime }`. -/
structure StartData where
  startTime : Int
  elapsedTime : Int
deriving DecidableEq, Repr

/-- A write performed by the background worker on `chrome.storage.local`'s
`timeTracker_currentTimer` key. -/
inductive StoreEvt
  | setTimer (ts : TimerSnapshot)
  | removeTimer
deriving DecidableEq, Repr

/-- The background service worker's state: whether the `setInterval` tick is
registered (`timerInterval` non-null), the module-level `timerState`, and the
content of `chrome.storage.local`'s `timeTracker_currentTimer` key. -/
structure BgState where
  intervalOn : Bool
  timerState : TimerSnapshot
  stored : Option TimerSnapshot
deriving DecidableEq, Repr

/-- Models `background.js` `startTimer(data)`: any running interval is replaced,
`timerState` becomes `{ isRunning: true, startTime: data.startTime || Date.now(),
elapsedTime: data.elapsedTime || 0 }`, the tick is registered, and the snapshot
is saved immediately. -/
def Background.startTimer (s : BgState) (data : StartData) (now : Int) :
    BgState × List StoreEvt :=
  let _ := s
  let ts : TimerSnapshot := ⟨true, jsOrInt data.startTime now, jsOrInt data.elapsedTime 0⟩
  (⟨true, ts, some ts⟩, [StoreEvt.setTimer ts])

/-- Models `background.js` `pauseTimer()`: the interval (if any) is cleared; only
when `timerState.isRunning` is the state frozen (`elapsedTime = now − startTime`)
and saved. -/
def Background.pauseTimer (s : BgState) (now : Int) : BgState × List StoreEvt :=
  if s.timerState.isRunning then
    let ts : TimerSnapshot :=
      { s.timerState with isRunning := false, elapsedTime := now - s.timerState.startTime }
    (⟨false, ts, some ts⟩, [StoreEvt.setTimer ts])
  else (⟨false, s.timerState, s.stored⟩, [])

/-- Models `background.js` `clearTimer()`: `pauseTimer()` first, then the state is
zeroed and the persisted snapshot removed. -/
def Background.clearTimer (s : BgState) (now : Int) : BgState × List StoreEvt :=
  let p := Background.pauseTimer s now
  (⟨p.1.intervalOn, ⟨false, 0, 0⟩, none⟩, p.2 ++ [StoreEvt.removeTimer])

/-- Models one firing of the background per-second tick callback:
`timerState.elapsedTime = Date.now() − timerState.startTime` followed by a save
(only possible while the interval is registered). -/
def Background.tick (s : BgState) (now : Int) : BgState × List StoreEvt :=
  if s.intervalOn then
    let ts : TimerSnapshot :=
      { s.timerState with elapsedTime := now - s.timerState.startTime }
    (⟨true, ts, some ts⟩, [StoreEvt.setTimer ts])
  else (s, [])

/-- Models `background.js` `getTimerStatus(sendResponse)`: when a persisted
snapshot exists it is adopted as `timerState`; if it says running while no
interval is registered, `startTimer(timerState)` restarts the tick (and persists);
the response is the (possibly restarted) `timerState`. -/
def Background.getTimerStatus (s : BgState) (now : Int) :
    BgState × TimerSnapshot × List StoreEvt :=
  match s.stored with
  | some ts =>
    let s1 : BgState := { s with timerState := ts }
    if ts.isRunning && !s1.intervalOn then
      let r := Background.startTimer s1 ⟨ts.startTime, ts.elapsedTime⟩ now
      (r.1, r.1.timerState, r.2)
    else (s1, ts, [])
  | none => (s, s.timerState, [])

/-- The UI `TimerManager`'s mutable fields: `isRunning`, whether the display
`setInterval` is registered, `startTime` (`null` before any start), and
`elapsedTime`. -/
structure TMState where
  isRunning : Bool
  intervalOn : Bool
  startTime : Option Int
  elapsedTime : Int
deriving DecidableEq, Repr

/-- Result of the UI `startTimer`: the new state, the `START_TIMER` payload sent
to the background (when not already running), and the snapshot handed to
`StorageManager.saveCurrentTimer`. -/
structure StartResult where
  state : TMState
  msg : Option StartData
  saved : Option TimerSnapshot
deriving DecidableEq, Repr

/-- Result of the UI `pauseTimer`: the new state, whether `PAUSE_TIMER` was sent,
and the snapshot saved. -/
structure PauseResult where
  state : TMState
  sentMsg : Bool
  saved : Option TimerSnapshot
deriving DecidableEq, Repr

/-- The error taxonomy relevant to stopping a timer. -/
inductive TimerErr
  | invalidState
deriving DecidableEq, Repr

/-- Result of the UI `endTimer`: the new state, the record handed to
`StorageManager.addRecord` (if any), whether `CLEAR_TIMER` was sent, whether
`clearCurrentTimer` removed the saved snapshot, and any error surfaced to the
user (`endTimer` shows no message and throws nothing on its early-return path,
so this component records exactly what the caller observes). -/
structure EndResult where
  state : TMState
  committed : Option RecordData
  clearMsg : Bool
  clearedStore : Bool
  reported : Option TimerErr
deriving Repr

/-- Models `TimerManager.startTimer()`: a no-op while running; otherwise
`startTime = Date.now() − elapsedTime`, `START_TIMER` is sent with
`{ startTime, elapsedTime }`, the display tick starts, and
`{ isRunning: true, startTime, elapsedTime }` is saved. -/
def TimerManager.startTimer (s : TMState) (now : Int) : StartResult :=
  if s.isRunning then ⟨s, none, none⟩
  else
    let st := now - s.elapsedTime
    ⟨{ s with isRunning := true, intervalOn := true, startTime := some st },
     some ⟨st, s.elapsedTime⟩,
     some ⟨true, st, s.elapsedTime⟩⟩

/-- Models `TimerManager.pauseTimer()`: a no-op while not running; otherwise the
tick stops, `elapsedTime = Date.now() − startTime`, `PAUSE_TIMER` is sent, and
`{ isRunning: false, startTime, elapsedTime }` is saved. -/
def TimerManager.pauseTimer (s : TMState) (now : Int) : PauseResult :=
  if s.isRunning then
    let e := now - optToNum s.startTime
    ⟨{ s with isRunning := false, intervalOn := false, elapsedTime := e },
     true, some ⟨false, optToNum s.startTime, e⟩⟩
  else ⟨s, false, none⟩

/-- Models `TimerManager.resumeTimer()`, which is literally `this.startTimer()`. -/
def TimerManager.resumeTimer (s : TMState) (now : Int) : StartResult :=
  TimerManager.startTimer s now

/-- Models `TimerManager.endTimer()`.  `fmt` stands for `formatTime` (clock-time
formatting of an epoch instant, time-zone dependent), `curDate` for
`this.currentDate` and `ty` for the selected work type.  On a falsy `startTime`
(`null` or `0`) the method returns immediately: nothing is committed, nothing is
sent, and no error is reported.  Otherwise
`durationMs = this.elapsedTime || (endTime − startTime)`,
`duration = Math.round(durationMs / 60000)`, the record is committed,
`CLEAR_TIMER` is sent, the state is reset and the saved snapshot cleared. -/
def TimerManager.endTimer (fmt : Int → String) (curDate ty : String) (s : TMState)
    (now : Int) : EndResult :=
  if optToNum s.startTime = 0 then ⟨s, none, false, false, none⟩
  else
    let st := optToNum s.startTime
    let durationMs := jsOrInt s.elapsedTime (now - st)
    let durationMinutes := jsRound durationMs
    let record : RecordData := ⟨curDate, fmt st, fmt now, .num durationMinutes, "计时工作", ty⟩
    ⟨⟨false, false, none, 0⟩, some record, true, true, none⟩

/-- Modelled from the spec: `start(elapsedSeed)` of section 4.1 — it sets
`startTime = now − elapsedSeed`, begins the per-second tick, announces the start,
and persists the snapshot `{ isRunning: true, startTime, elapsedTime }` for the
seeded elapsed time. -/
def specStartWithSeed (s : TMState) (seed : Int) (now : Int) : StartResult :=
  let st := now - seed
  ⟨{ s with isRunning := true, intervalOn := true, startTime := some st },
   some ⟨st, seed⟩,
   some ⟨true, st, seed⟩⟩

/-- The error taxonomy relevant to settings management. -/
inductive SettingsErr
  | validationError
deriving DecidableEq, Repr

/-- Result of a `SettingsManager` category operation: the `workTypes` list
afterwards, the error surfaced to the user (if any), and whether the settings
were re-saved. -/
structure TypesResult where
  workTypes : List String
  err : Option SettingsErr
  saved : Bool
deriving DecidableEq, Repr

/-- Models `SettingsManager.addWorkType()`: the trimmed input; empty input is a
silent return; a duplicate shows an error; otherwise the name is pushed and the
settings saved. -/
def SettingsManager.addWorkType (wts : List String) (input : String) : TypesResult :=
  let typeName := input.trim
  if typeName = "" then ⟨wts, none, false⟩
  else if typeName ∈ wts then ⟨wts, some .validationError, false⟩
  else ⟨wts ++ [typeName], none, true⟩

/-- Models `SettingsManager.deleteWorkType(index)`: with at most one category
left the deletion is refused with an error and nothing changes; otherwise
`splice(index, 1)` removes the indexed element and the settings are saved. -/
def SettingsManager.deleteWorkType (wts : List String) (index : Nat) : TypesResult :=
  if wts.length ≤ 1 then ⟨wts, some .validationError, false⟩
  else ⟨wts.take index ++ wts.drop (index + 1), none, true⟩

/-- The combined system state: the UI `TimerManager`, the background worker, the
`localStorage` copy of the current-timer snapshot written by `StorageManager`,
and the persisted record ledger. -/
structure Sys where
  tm : TMState
  bg : BgState
  localStore : Option TimerSnapshot
  ledger : List StoredRecord
deriving DecidableEq, Repr

/-- The events the single-threaded system processes: the four user operations,
one firing of the UI display-refresh tick, and one firing of the background
persistence tick. -/
inductive Ev
  | start
  | pause
  | resume
  | stop
  | uiTick
  | bgTick
deriving DecidableEq, Repr

/-- One system step: the event's UI handler runs to completion, including the
messages it sends to the background worker and the storage writes both sides
perform.  `uiTick` models `updateTimerDisplay` while the display interval is
registered: when running it queries `GET_TIMER_STATUS` (which may rehydrate and
restart the background timer) and overwrites `this.elapsedTime` with
`Date.now() − response.startTime`. -/
def sysStep (fmt : Int → String) (curDate ty : String) (s : Sys) (e : Ev) (t : Int) : Sys :=
  match e with
  | .start =>
    let r := TimerManager.startTimer s.tm t
    let bg := match r.msg with
      | some d => (Background.startTimer s.bg d t).1
      | none => s.bg
    let ls := match r.saved with
      | some ts => some ts
      | none => s.localStore
    { s with tm := r.state, bg := bg, localStore := ls }
  | .resume =>
    let r := TimerManager.resumeTimer s.tm t
    let bg := match r.msg with
      | some d => (Background.startTimer s.bg d t).1
      | none => s.bg
    let ls := match r.saved with
      | some ts => some ts
      | none => s.localStore
    { s with tm := r.state, bg := bg, localStore := ls }
  | .pause =>
    let r := TimerManager.pauseTimer s.tm t
    let bg := if r.sentMsg then (Background.pauseTimer s.bg t).1 else s.bg
    let ls := match r.saved with
      | some ts => some ts
      | none => s.localStore
    { s with tm := r.state, bg := bg, localStore := ls }
  | .stop =>
    let r := TimerManager.endTimer fmt curDate ty s.tm t
    let ledger := match r.committed with
      | some rec => StorageManager.addRecord s.ledger rec t
      | none => s.ledger
    let bg := if r.clearMsg then (Background.clearTimer s.bg t).1 else s.bg
    let ls := if r.clearedStore then none else s.localStore
    { tm := r.state, bg := bg, localStore := ls, ledger := ledger }
  | .uiTick =>
    if s.tm.intervalOn && s.tm.isRunning then
      let q := Background.getTimerStatus s.bg t
      let resp := q.2.1
      let tm :=
        if resp.isRunning then { s.tm with elapsedTime := t - resp.startTime } else s.tm
      { s with tm := tm, bg := q.1 }
    else s
  | .bgTick => { s with bg := (Background.tick s.bg t).1 }

/-- Run a list of timestamped events. -/
def sysRun (fmt : Int → String) (curDate ty : String) (s : Sys)
    (evs : List (Ev × Int)) : Sys :=
  evs.foldl (fun st e => sysStep fmt curDate ty st e.1 e.2) s

/-- The initial system state: fresh `TimerManager` (constructor fields), fresh
background worker, no persisted snapshot anywhere, empty ledger. -/
def initSys : Sys :=
  ⟨⟨false, false, none, 0⟩, ⟨false, ⟨false, 0, 0⟩, none⟩, none, []⟩

/-- Timestamps of an event list are nonnegative-and-nondecreasing starting from
`t` (the wall clock never runs backwards). -/
def TimesOK : Int → List (Ev × Int) → Prop
  | _, [] => True
  | t, e :: rest => t ≤ e.2 ∧ TimesOK e.2 rest

/-- The clock-consistency invariant of reachable system states at wall-clock
instant `now`: the UI elapsed time is nonnegative, every remembered start
instant lies in the past, and every committed record carries a nonnegative
numeric duration. -/
def SysInv (now : Int) (s : Sys) : Prop :=
  0 ≤ s.tm.elapsedTime ∧
  optToNum s.tm.startTime ≤ now ∧
  s.bg.timerState.startTime ≤ now ∧
  (∀ p, s.bg.stored = some p → p.startTime ≤ now) ∧
  (∀ r ∈ s.ledger, ∃ k, r.duration = Dur.num k ∧ 0 ≤ k)

/-- A trivial clock-time formatter, used to instantiate the time-zone dependent
`formatTime` parameter on concrete runs. -/
def fmtNull : Int → String := fun _ => ""

/-! ### Basic facts about the JavaScript helpers -/

theorem jsOrInt_zero_right (a : Int) : jsOrInt a 0 = a := by
  unfold jsOrInt
  split
  · omega
  · rfl

theorem jsOrInt_of_ne {a : Int} (b : Int) (h : a ≠ 0) : jsOrInt a b = a := by
  simp [jsOrInt, h]

theorem jsRound_nonneg {ms : Int} (h : 0 ≤ ms) : 0 ≤ jsRound ms := by
  unfold jsRound
  exact Int.fdiv_nonneg (by omega) (by omega)

/-! ### C1: status-query rehydration of a running persisted snapshot -/

/-- C1: if the background authority has no registered tick interval and the
persisted snapshot says `isRunning` (with a truthy `startTime`), then
`getTimerStatus` rehydrates from the snapshot, restarts the tick (transitioning
the authority back into Running), persists the adopted snapshot, and responds
with a snapshot whose `startTime` and `elapsedTime` are exactly the persisted
ones — the elapsed time is continuous with the persisted `startTime` and is not
reset to zero. -/
theorem getTimerStatus_rehydrates_running (s : BgState) (p : TimerSnapshot) (now : Int)
    (hInt : s.intervalOn = false) (hSt : s.stored = some p)
    (hRun : p.isRunning = true) (hT : p.startTime ≠ 0) :
    Background.getTimerStatus s now = (⟨true, p, some p⟩, p, [StoreEvt.setTimer p]) := by
  obtain ⟨pr, pst, pel⟩ := p
  simp only [TimerSnapshot.mk.injEq] at hRun hT ⊢
  subst hRun
  simp [Background.getTimerStatus, Background.startTimer, hSt, hInt,
    jsOrInt_of_ne now hT, jsOrInt_zero_right]

/-- Witness for C1 at a concrete restarted-authority state. -/
theorem getTimerStatus_rehydrates_running_witness :
    Background.getTimerStatus ⟨false, ⟨false, 0, 0⟩, some ⟨true, 500, 120⟩⟩ 1000 =
      (⟨true, ⟨true, 500, 120⟩, some ⟨true, 500, 120⟩⟩, ⟨true, 500, 120⟩,
        [StoreEvt.setTimer ⟨true, 500, 120⟩]) :=
  getTimerStatus_rehydrates_running ⟨false, ⟨false, 0, 0⟩, some ⟨true, 500, 120⟩⟩
    ⟨true, 500, 120⟩ 1000 rfl rfl rfl (by decide)

/-! ### C3: resume is start with the accumulated elapsed time as seed -/

/-- C3: on any non-running (paused) state, `resumeTimer` produces exactly the
same transition as the spec's `start(elapsedSeed = elapsedTime)`: the state with
`startTime = now − elapsedTime` and the tick begun, the same `START_TIMER`
payload, and the same persisted snapshot. -/
theorem resumeTimer_eq_specStart (s : TMState) (now : Int) (h : s.isRunning = false) :
    TimerManager.resumeTimer s now = specStartWithSeed s s.elapsedTime now := by
  simp [TimerManager.resumeTimer, TimerManager.startTimer, specStartWithSeed, h]

/-- Witness for C3 at a concrete paused state. -/
theorem resumeTimer_eq_specStart_witness :
    TimerManager.resumeTimer ⟨false, false, some 3, 120⟩ 500 =
      specStartWithSeed ⟨false, false, some 3, 120⟩ 120 500 :=
  resumeTimer_eq_specStart ⟨false, false, some 3, 120⟩ 500 rfl

/-! ### C4: stopping with nothing started -/

/-- C4 counterexample: invoking `endTimer` on a state whose `startTime` is null
reports no error whatsoever to the caller (`reported = none`), refuting the
claim that it fails with an `InvalidState` error that is reported; it also
commits nothing. -/
theorem endTimer_nothing_started_silent :
    (TimerManager.endTimer fmtNull "2025-01-01" "工作" ⟨false, false, none, 0⟩ 99).reported
        = none ∧
      (TimerManager.endTimer fmtNull "2025-01-01" "工作" ⟨false, false, none, 0⟩ 99).committed
        = none := by
  constructor <;> rfl

/-- C4 amended: invoking `endTimer` with a falsy `startTime` (null, or the
instant `0`) is a complete silent no-op: the state is unchanged, no work record
is committed to the ledger, no `CLEAR_TIMER` message is sent, the saved snapshot
is untouched, and no error is reported to the caller. -/
theorem endTimer_nothing_started_noop (fmt : Int → String) (curDate ty : String)
    (s : TMState) (now : Int) (h : optToNum s.startTime = 0) :
    TimerManager.endTimer fmt curDate ty s now = ⟨s, none, false, false, none⟩ := by
  simp [TimerManager.endTimer, h]

/-- Witness for the amended C4 at a concrete never-started state. -/
theorem endTimer_nothing_started_noop_witness :
    TimerManager.endTimer fmtNull "2025-01-01" "学习" ⟨false, false, none, 7⟩ 42 =
      ⟨⟨false, false, none, 7⟩, none, false, false, none⟩ :=
  endTimer_nothing_started_noop fmtNull "2025-01-01" "学习" ⟨false, false, none, 7⟩ 42 rfl

/-! ### C5: identifiers assigned by addRecord -/

/-- C5: two `addRecord` calls that happen during the same clock millisecond
(`Date.now()` returns `1000` both times) assign the id `1000` to both records,
so the newly assigned id is not strictly greater than the previous one and ids
are not unique — contradicting the claim and the code's own comment that a
unique id is assigned. -/
theorem addRecord_same_millisecond_duplicate_id :
    ((StorageManager.addRecord
        (StorageManager.addRecord [] ⟨"2024-01-01", "09:00", "10:00", Dur.num 60, "a", "工作"⟩ 1000)
        ⟨"2024-01-01", "10:00", "10:30", Dur.num 30, "b", "生活"⟩ 1000).map
          (fun r => r.id) = [1000, 1000]) ∧
      ¬ (StorageManager.addRecord
        (StorageManager.addRecord [] ⟨"2024-01-01", "09:00", "10:00", Dur.num 60, "a", "工作"⟩ 1000)
        ⟨"2024-01-01", "10:00", "10:30", Dur.num 30, "b", "生活"⟩ 1000).Pairwise
          (fun a b => a.id < b.id) := by
  constructor
  · rfl
  · intro h
    simp [StorageManager.addRecord, List.pairwise_cons] at h

/-! ### C8: the workTypes non-emptiness invariant -/

/-- C8: category operations preserve non-emptiness of `workTypes`: deleting from
a non-empty list never empties it; adding never empties it; and deleting while
exactly one category remains is refused with a `ValidationError`, leaving the
list unchanged and saving nothing. -/
theorem workTypes_nonempty_preserved (wts : List String) (index : Nat) (input : String)
    (h : wts ≠ []) :
    (SettingsManager.deleteWorkType wts index).workTypes ≠ [] ∧
      (SettingsManager.addWorkType wts input).workTypes ≠ [] ∧
      (wts.length = 1 →
        SettingsManager.deleteWorkType wts index =
          ⟨wts, some SettingsErr.validationError, false⟩) := by
  refine ⟨?_, ?_, ?_⟩
  · unfold SettingsManager.deleteWorkType
    split
    · simpa using h
    · rename_i hlen
      intro hempty
      have hcount := congrArg List.length hempty
      rw [List.length_append, List.length_take, List.length_drop] at hcount
      simp only [List.length_nil] at hcount
      omega
  · by_cases h1 : input.trim = ""
    · simpa [SettingsManager.addWorkType, h1] using h
    · by_cases h2 : input.trim ∈ wts
      · simpa [SettingsManager.addWorkType, h1, h2] using h
      · simp [SettingsManager.addWorkType, h1, h2]
  · intro h1
    simp [SettingsManager.deleteWorkType, h1]

/-- Witness for C8 at the sole-remaining-category state. -/
theorem workTypes_nonempty_preserved_witness :
    (SettingsManager.deleteWorkType ["工作"] 0).workTypes ≠ [] ∧
      (SettingsManager.addWorkType ["工作"] "生活").workTypes ≠ [] ∧
      ((["工作"] : List String).length = 1 →
        SettingsManager.deleteWorkType ["工作"] 0 =
          ⟨["工作"], some SettingsErr.validationError, false⟩) :=
  workTypes_nonempty_preserved ["工作"] 0 "生活" (by decide)

/-! ### C9: deleting or updating an absent id -/

theorem replaceFirst_eq_none (id : Int) (patch : StoredRecord → StoredRecord) :
    ∀ l : List StoredRecord, (∀ r ∈ l, r.id ≠ id) →
      StorageManager.replaceFirst id patch l = none := by
  intro l
  induction l with
  | nil => intro _; rfl
  | cons r rs ih =>
    intro h
    unfold StorageManager.replaceFirst
    rw [if_neg (h r (List.mem_cons_self r rs))]
    rw [ih (fun x hx => h x (List.mem_cons_of_mem r hx))]
    rfl

/-- C9: when no stored record carries the given id, `deleteRecord` returns the
falsy failure result without invoking `saveRecords` (no storage write) and the
stored list is exactly unchanged; `updateRecord` on the same absent id behaves
identically, for every patch. -/
theorem absent_id_no_write (records : List StoredRecord) (id : Int)
    (h : ∀ r ∈ records, r.id ≠ id) :
    StorageManager.deleteRecord records id = ⟨records, false, false⟩ ∧
      ∀ patch : StoredRecord → StoredRecord,
        StorageManager.updateRecord records id patch = ⟨records, false, false⟩ := by
  constructor
  · have hfil : records.filter (fun r => r.id != id) = records := by
      rw [List.filter_eq_self]
      intro a ha
      simpa using h a ha
    simp [StorageManager.deleteRecord, hfil]
  · intro patch
    simp [StorageManager.updateRecord, replaceFirst_eq_none id patch records h]

/-- Witness for C9 at a concrete one-record list and an id not in it. -/
theorem absent_id_no_write_witness :
    StorageManager.deleteRecord [⟨⟨"2024-01-01", "09:00", "10:00", Dur.num 60, "a", "工作"⟩, 1⟩] 2 =
        ⟨[⟨⟨"2024-01-01", "09:00", "10:00", Dur.num 60, "a", "工作"⟩, 1⟩], false, false⟩ ∧
      StorageManager.updateRecord
          [⟨⟨"2024-01-01", "09:00", "10:00", Dur.num 60, "a", "工作"⟩, 1⟩] 2 (fun r => r) =
        ⟨[⟨⟨"2024-01-01", "09:00", "10:00", Dur.num 60, "a", "工作"⟩, 1⟩], false, false⟩ := by
  have h := absent_id_no_write
    [⟨⟨"2024-01-01", "09:00", "10:00", Dur.num 60, "a", "工作"⟩, 1⟩] 2 (by decide)
  exact ⟨h.1, h.2 (fun r => r)⟩

/-! ### C10: pausing the background timer while it is not running -/

/-- C10: invoking the background `pauseTimer` while `timerState.isRunning` is
false leaves the in-memory `timerState` and the persisted snapshot completely
unchanged and performs no storage write; consequently a second `pauseTimer`
(at any later instant) returns exactly the same state and writes as a single
one — pause composed with pause is observationally a single pause. -/
theorem pauseTimer_not_running_frame (s : BgState) (t u : Int)
    (h : s.timerState.isRunning = false) :
    (Background.pauseTimer s t).1.timerState = s.timerState ∧
      (Background.pauseTimer s t).1.stored = s.stored ∧
      (Background.pauseTimer s t).2 = [] ∧
      Background.pauseTimer (Background.pauseTimer s t).1 u = Background.pauseTimer s t := by
  simp [Background.pauseTimer, h]

/-- Witness for C10 at a concrete non-running state with a stale snapshot. -/
theorem pauseTimer_not_running_frame_witness :
    (Background.pauseTimer ⟨true, ⟨false, 7, 9⟩, some ⟨true, 1, 2⟩⟩ 50).1.timerState
        = ⟨false, 7, 9⟩ ∧
      (Background.pauseTimer ⟨true, ⟨false, 7, 9⟩, some ⟨true, 1, 2⟩⟩ 50).1.stored
        = some ⟨true, 1, 2⟩ ∧
      (Background.pauseTimer ⟨true, ⟨false, 7, 9⟩, some ⟨true, 1, 2⟩⟩ 50).2 = [] ∧
      Background.pauseTimer (Background.pauseTimer ⟨true, ⟨false, 7, 9⟩, some ⟨true, 1, 2⟩⟩ 50).1 60
        = Background.pauseTimer ⟨true, ⟨false, 7, 9⟩, some ⟨true, 1, 2⟩⟩ 50 :=
  pauseTimer_not_running_frame ⟨true, ⟨false, 7, 9⟩, some ⟨true, 1, 2⟩⟩ 50 60 rfl

/-! ### Algebra of the daily sums -/

theorem jsnum_zero_add (a : JSNum) : (JSNum.int 0).add a = a := by
  cases a <;> simp [JSNum.add]

theorem jsnum_add_comm (a b : JSNum) : a.add b = b.add a := by
  cases a <;> cases b <;> simp [JSNum.add, Int.add_comm]

theorem jsnum_add_assoc (a b c : JSNum) : (a.add b).add c = a.add (b.add c) := by
  cases a <;> cases b <;> cases c <;> simp [JSNum.add, Int.add_assoc]

theorem foldl_sumStep_add (l : List StoredRecord) (a : JSNum) :
    l.foldl sumStep a = a.add (l.foldl sumStep (JSNum.int 0)) := by
  induction l generalizing a with
  | nil => cases a <;> simp [JSNum.add]
  | cons x xs ih =>
    rw [List.foldl_cons, List.foldl_cons, ih (sumStep a x), ih (sumStep (JSNum.int 0) x)]
    show (a.add _).add _ = a.add (((JSNum.int 0).add _).add _)
    rw [jsnum_zero_add, jsnum_add_assoc]

theorem sumStep_cons (x : StoredRecord) (xs : List StoredRecord) :
    (x :: xs).foldl sumStep (JSNum.int 0) =
      (durToNum x.duration).add (xs.foldl sumStep (JSNum.int 0)) := by
  rw [List.foldl_cons, foldl_sumStep_add]
  show ((JSNum.int 0).add _).add _ = _
  rw [jsnum_zero_add]

theorem sumStep_partition (p : StoredRecord → Bool) (l : List StoredRecord) :
    l.foldl sumStep (JSNum.int 0) =
      ((l.filter p).foldl sumStep (JSNum.int 0)).add
        ((l.filter (fun r => !(p r))).foldl sumStep (JSNum.int 0)) := by
  induction l with
  | nil => rfl
  | cons x xs ih =>
    rw [sumStep_cons]
    by_cases hp : p x
    · rw [List.filter_cons_of_pos hp, List.filter_cons_of_neg (by simp [hp]),
        sumStep_cons, jsnum_add_assoc, ← ih]
    · rw [List.filter_cons_of_neg (by simpa using hp),
        List.filter_cons_of_pos (by simpa using hp), sumStep_cons,
        ← jsnum_add_assoc, jsnum_add_comm _ (durToNum x.duration), jsnum_add_assoc, ← ih]

theorem sumStep_int_of_no_nan (l : List StoredRecord)
    (h : ∀ r ∈ l, durToNum r.duration ≠ JSNum.nan) :
    ∃ n, l.foldl sumStep (JSNum.int 0) = JSNum.int n := by
  induction l with
  | nil => exact ⟨0, rfl⟩
  | cons x xs ih =>
    obtain ⟨n, hn⟩ := ih (fun r hr => h r (List.mem_cons_of_mem x hr))
    have hx := h x (List.mem_cons_self x xs)
    rw [sumStep_cons, hn]
    cases hd : durToNum x.duration with
    | int m => exact ⟨m + n, rfl⟩
    | nan => exact absurd hd hx

/-! ### C6: the excluding-life sum versus the total sum -/

/-- C6 counterexample: a single record on the date with type `"生活"` and the
unparseable duration `"abc"` breaks the claimed identity: the excluding-life sum
is `0` (the record is filtered out), while `totalMinutes` and the life-sum are
both `NaN`, so the claimed difference is `NaN ≠ 0`. -/
theorem excluding_vs_total_nan_life_cex :
    StorageManager.getWorkTimeExcludingLifeByDate
        [⟨⟨"2024-01-01", "09:00", "10:00", Dur.str "abc", "x", "生活"⟩, 1⟩] "2024-01-01" ≠
      (StorageManager.getTotalTimeByDate
        [⟨⟨"2024-01-01", "09:00", "10:00", Dur.str "abc", "x", "生活"⟩, 1⟩] "2024-01-01").sub
        (lifeTimeByDate
          [⟨⟨"2024-01-01", "09:00", "10:00", Dur.str "abc", "x", "生活"⟩, 1⟩] "2024-01-01") := by
  decide

/-- C6 amended: whenever every record on the date with type `"生活"` has a
duration that parses (missing or zero included — only records with a present but
unparseable duration are excluded), `totalMinutesExcluding(date, "生活")` equals
`totalMinutes(date)` minus the sum of durations of the records on that date
whose type is `"生活"`. -/
theorem excluding_eq_total_sub_life (records : List StoredRecord) (date : String)
    (h : ∀ r ∈ StorageManager.getRecordsByDate records date,
      r.type = "生活" → durToNum r.duration ≠ JSNum.nan) :
    StorageManager.getWorkTimeExcludingLifeByDate records date =
      (StorageManager.getTotalTimeByDate records date).sub (lifeTimeByDate records date) := by
  have hL : ∃ L, lifeTimeByDate records date = JSNum.int L := by
    unfold lifeTimeByDate
    apply sumStep_int_of_no_nan
    intro r hr
    have hm := List.mem_filter.mp hr
    exact h r hm.1 (by simpa using hm.2)
  obtain ⟨L, hLife⟩ := hL
  have hpart := sumStep_partition (fun r => r.type == "生活")
    (StorageManager.getRecordsByDate records date)
  have hbne : (fun r : StoredRecord => !(r.type == "生活")) =
      (fun r : StoredRecord => r.type != "生活") := rfl
  rw [hbne] at hpart
  have hLife2 := hLife
  unfold lifeTimeByDate at hLife2
  rw [hLife2] at hpart
  unfold StorageManager.getWorkTimeExcludingLifeByDate
  unfold StorageManager.getTotalTimeByDate
  rw [hpart, hLife]
  cases hX : ((StorageManager.getRecordsByDate records date).filter
      (fun r => r.type != "生活")).foldl sumStep (JSNum.int 0) with
  | int k =>
    simp only [JSNum.add, JSNum.sub, JSNum.int.injEq]
    omega
  | nan => simp [JSNum.add, JSNum.sub]

/-- Witness for the amended C6 at a concrete two-record day. -/
theorem excluding_eq_total_sub_life_witness :
    StorageManager.getWorkTimeExcludingLifeByDate
        [⟨⟨"2024-01-01", "09:00", "09:30", Dur.num 30, "x", "生活"⟩, 1⟩,
         ⟨⟨"2024-01-01", "10:00", "11:00", Dur.num 60, "y", "工作"⟩, 2⟩] "2024-01-01" =
      (StorageManager.getTotalTimeByDate
        [⟨⟨"2024-01-01", "09:00", "09:30", Dur.num 30, "x", "生活"⟩, 1⟩,
         ⟨⟨"2024-01-01", "10:00", "11:00", Dur.num 60, "y", "工作"⟩, 2⟩] "2024-01-01").sub
        (lifeTimeByDate
          [⟨⟨"2024-01-01", "09:00", "09:30", Dur.num 30, "x", "生活"⟩, 1⟩,
           ⟨⟨"2024-01-01", "10:00", "11:00", Dur.num 60, "y", "工作"⟩, 2⟩] "2024-01-01") :=
  excluding_eq_total_sub_life
    [⟨⟨"2024-01-01", "09:00", "09:30", Dur.num 30, "x", "生活"⟩, 1⟩,
     ⟨⟨"2024-01-01", "10:00", "11:00", Dur.num 60, "y", "工作"⟩, 2⟩] "2024-01-01" (by decide)

/-! ### C7: robustness of the daily sums -/

/-- C7 counterexample: a record on the date whose duration field holds the
unparseable string `"abc"` makes `totalMinutes` evaluate to `NaN` — not a
well-defined integer number of minutes (no exception is raised, but the record
is not treated as zero). -/
theorem total_time_nan_on_unparseable :
    StorageManager.getTotalTimeByDate
      [⟨⟨"2024-01-01", "09:00", "10:00", Dur.str "abc", "x", "工作"⟩, 1⟩] "2024-01-01"
      = JSNum.nan := by
  decide

/-- C7 amended: the two daily sums are total functions (the code can never
raise: `parseInt` and `+` are total), records whose duration field is missing
contribute exactly zero to both sums, and the results are well-defined integers
provided every duration present on the date parses; a present unparseable
duration instead turns the sum into `NaN`. -/
theorem sums_total_and_missing_zero :
    (∀ (records : List StoredRecord) (date : String) (r : StoredRecord),
        r.duration = Dur.missing →
        StorageManager.getTotalTimeByDate (r :: records) date =
            StorageManager.getTotalTimeByDate records date ∧
          StorageManager.getWorkTimeExcludingLifeByDate (r :: records) date =
            StorageManager.getWorkTimeExcludingLifeByDate records date) ∧
    (∀ (records : List StoredRecord) (date : String),
        (∀ r ∈ StorageManager.getRecordsByDate records date,
          durToNum r.duration ≠ JSNum.nan) →
        (∃ n, StorageManager.getTotalTimeByDate records date = JSNum.int n) ∧
        (∃ m, StorageManager.getWorkTimeExcludingLifeByDate records date = JSNum.int m)) := by
  constructor
  · intro records date r hmiss
    constructor
    · unfold StorageManager.getTotalTimeByDate StorageManager.getRecordsByDate
      simp only [List.filter_cons]
      by_cases hd : (r.date == date) = true
      · rw [if_pos hd, sumStep_cons, hmiss]
        exact jsnum_zero_add _
      · rw [if_neg hd]
    · unfold StorageManager.getWorkTimeExcludingLifeByDate StorageManager.getRecordsByDate
      simp only [List.filter_cons]
      by_cases hd : (r.date == date) = true
      · rw [if_pos hd]
        simp only [List.filter_cons]
        by_cases ht : (r.type != "生活") = true
        · rw [if_pos ht, sumStep_cons, hmiss]
          exact jsnum_zero_add _
        · rw [if_neg ht]
      · rw [if_neg hd]
  · intro records date h
    constructor
    · exact sumStep_int_of_no_nan _ h
    · exact sumStep_int_of_no_nan _
        (fun r hr => h r (List.mem_filter.mp hr).1)

/-- Witness for the amended C7: a missing-duration record contributes zero, and
a day of parseable durations sums to an integer. -/
theorem sums_total_and_missing_zero_witness :
    (StorageManager.getTotalTimeByDate
        [⟨⟨"2024-01-01", "09:00", "10:00", Dur.missing, "x", "工作"⟩, 1⟩] "2024-01-01" =
      StorageManager.getTotalTimeByDate [] "2024-01-01") ∧
      ∃ n, StorageManager.getTotalTimeByDate
        [⟨⟨"2024-01-01", "09:00", "10:00", Dur.num 25, "y", "工作"⟩, 2⟩] "2024-01-01" =
          JSNum.int n :=
  ⟨(sums_total_and_missing_zero.1 [] "2024-01-01"
      ⟨⟨"2024-01-01", "09:00", "10:00", Dur.missing, "x", "工作"⟩, 1⟩ rfl).1,
   (sums_total_and_missing_zero.2
      [⟨⟨"2024-01-01", "09:00", "10:00", Dur.num 25, "y", "工作"⟩, 2⟩] "2024-01-01"
      (by decide)).1⟩

/-! ### C2: the duration committed by stop() -/

theorem sysInv_mono {t u : Int} {s : Sys} (h : SysInv t s) (htu : t ≤ u) : SysInv u s := by
  obtain ⟨h1, h2, h3, h4, h5⟩ := h
  exact ⟨h1, le_trans h2 htu, le_trans h3 htu, fun p hp => le_trans (h4 p hp) htu, h5⟩

theorem jsOrInt_le {a b t : Int} (ha : a ≤ t) (hb : b ≤ t) : jsOrInt a b ≤ t := by
  unfold jsOrInt
  split <;> omega

theorem sysInv_step (fmt : Int → String) (d ty : String) {t : Int} {s : Sys} (e : Ev)
    (ht : 0 ≤ t) (h : SysInv t s) : SysInv t (sysStep fmt d ty s e t) := by
  obtain ⟨h1, h2, h3, h4, h5⟩ := h
  cases e with
  | start =>
    by_cases hrun : s.tm.isRunning
    · simp only [sysStep, TimerManager.startTimer, hrun, if_true]
      exact ⟨h1, h2, h3, h4, h5⟩
    · simp only [sysStep, TimerManager.startTimer, hrun, if_false, Bool.false_eq_true,
        Background.startTimer]
      unfold SysInv
      dsimp only
      refine ⟨h1, ?_, ?_, ?_, h5⟩
      · simp only [optToNum, Option.getD_some]
        omega
      · exact jsOrInt_le (by omega) le_rfl
      · intro p hp
        simp only [Option.some.injEq] at hp
        subst hp
        exact jsOrInt_le (by omega) le_rfl
  | resume =>
    by_cases hrun : s.tm.isRunning
    · simp only [sysStep, TimerManager.resumeTimer, TimerManager.startTimer, hrun, if_true]
      exact ⟨h1, h2, h3, h4, h5⟩
    · simp only [sysStep, TimerManager.resumeTimer, TimerManager.startTimer, hrun, if_false,
        Bool.false_eq_true, Background.startTimer]
      unfold SysInv
      dsimp only
      refine ⟨h1, ?_, ?_, ?_, h5⟩
      · simp only [optToNum, Option.getD_some]
        omega
      · exact jsOrInt_le (by omega) le_rfl
      · intro p hp
        simp only [Option.some.injEq] at hp
        subst hp
        exact jsOrInt_le (by omega) le_rfl
  | pause =>
    by_cases hrun : s.tm.isRunning
    · simp only [sysStep, TimerManager.pauseTimer, hrun, if_true]
      unfold SysInv
      dsimp only
      refine ⟨by omega, h2, ?_, ?_, h5⟩
      · by_cases hbg : s.bg.timerState.isRunning
        · simp only [Background.pauseTimer, hbg, if_true]
          exact h3
        · simp only [Background.pauseTimer, hbg, if_false, Bool.false_eq_true]
          exact h3
      · intro p hp
        by_cases hbg : s.bg.timerState.isRunning
        · simp only [Background.pauseTimer, hbg, if_true, Option.some.injEq] at hp
          subst hp
          exact h3
        · simp only [Background.pauseTimer, hbg, if_false, Bool.false_eq_true] at hp
          exact h4 p hp
    · simp only [sysStep, TimerManager.pauseTimer, hrun, if_false, Bool.false_eq_true]
      exact ⟨h1, h2, h3, h4, h5⟩
  | stop =>
    by_cases hst : optToNum s.tm.startTime = 0
    · simp only [sysStep, TimerManager.endTimer, hst, if_true]
      exact ⟨h1, h2, h3, h4, h5⟩
    · simp only [sysStep, TimerManager.endTimer, hst, if_false]
      unfold SysInv
      dsimp only
      refine ⟨le_rfl, by simp only [optToNum, Option.getD_none]; omega, ?_, ?_, ?_⟩
      · simp only [Background.clearTimer]
        exact ht
      · intro p hp
        simp only [Background.clearTimer] at hp
        exact Option.noConfusion hp
      · intro r hr
        rw [StorageManager.addRecord, List.mem_append] at hr
        rcases hr with hold | hnew
        · exact h5 r hold
        · simp only [List.mem_singleton] at hnew
          subst hnew
          refine ⟨jsRound (jsOrInt s.tm.elapsedTime (t - optToNum s.tm.startTime)), rfl, ?_⟩
          apply jsRound_nonneg
          unfold jsOrInt
          split <;> omega
  | uiTick =>
    by_cases hg : (s.tm.intervalOn && s.tm.isRunning) = true
    · cases hsp : s.bg.stored with
      | none =>
        simp only [sysStep, hg, if_true, Background.getTimerStatus, hsp]
        by_cases hbr : s.bg.timerState.isRunning
        · simp only [hbr, if_true]
          unfold SysInv
          dsimp only
          exact ⟨by omega, h2, h3, fun p hp => h4 p hp, h5⟩
        · simp only [hbr, if_false, Bool.false_eq_true]
          exact ⟨h1, h2, h3, fun p hp => h4 p hp, h5⟩
      | some p =>
        have hpt : p.startTime ≤ t := h4 p hsp
        have hle : jsOrInt p.startTime t ≤ t := jsOrInt_le hpt le_rfl
        simp only [sysStep, hg, if_true, Background.getTimerStatus, hsp]
        by_cases hg2 : (p.isRunning && !s.bg.intervalOn) = true
        · simp only [hg2, if_true, Background.startTimer]
          unfold SysInv
          dsimp only
          refine ⟨by omega, h2, hle, ?_, h5⟩
          intro q hq
          simp only [Option.some.injEq] at hq
          subst hq
          exact hle
        · simp only [hg2, if_false, Bool.false_eq_true]
          by_cases hpr : p.isRunning
          · simp only [hpr, if_true]
            unfold SysInv
            dsimp only
            refine ⟨by omega, h2, hpt, ?_, h5⟩
            intro q hq
            simp only [Option.some.injEq] at hq
            subst hq
            exact hpt
          · simp only [hpr, if_false, Bool.false_eq_true]
            unfold SysInv
            dsimp only
            refine ⟨h1, h2, hpt, ?_, h5⟩
            intro q hq
            simp only [Option.some.injEq] at hq
            subst hq
            exact hpt
    · simp only [sysStep, hg, if_false, Bool.false_eq_true]
      exact ⟨h1, h2, h3, h4, h5⟩
  | bgTick =>
    by_cases hbg : s.bg.intervalOn
    · simp only [sysStep, Background.tick, hbg, if_true]
      unfold SysInv
      dsimp only
      refine ⟨h1, h2, h3, ?_, h5⟩
      intro p hp
      simp only [Option.some.injEq] at hp
      subst hp
      exact h3
    · simp only [sysStep, Background.tick, hbg, if_false, Bool.false_eq_true]
      exact ⟨h1, h2, h3, h4, h5⟩

theorem sysRun_inv (fmt : Int → String) (d ty : String) :
    ∀ (evs : List (Ev × Int)) (s : Sys) (t : Int), 0 ≤ t → SysInv t s → TimesOK t evs →
      ∃ u, 0 ≤ u ∧ SysInv u (sysRun fmt d ty s evs) := by
  intro evs
  induction evs with
  | nil => exact fun s t ht h _ => ⟨t, ht, h⟩
  | cons e rest ih =>
    intro s t ht h hok
    obtain ⟨hte, hrest⟩ := hok
    exact ih (sysStep fmt d ty s e.1 e.2) e.2 (le_trans ht hte)
      (sysInv_step fmt d ty e.1 (le_trans ht hte) (sysInv_mono h hte)) hrest

theorem sysInv_init : SysInv 0 initSys := by
  refine ⟨le_rfl, ?_, ?_, ?_, ?_⟩ <;> simp [initSys, optToNum]

theorem startStop_run_duration (fmt : Int → String) (d ty : String) (T0 T1 : Int)
    (h0 : 0 < T0) :
    (sysRun fmt d ty initSys [(Ev.start, T0), (Ev.stop, T1)]).ledger.map
      (fun r => r.duration) = [Dur.num (jsRound (T1 - T0))] := by
  have hT0 : (T0 : Int) ≠ 0 := by omega
  simp [sysRun, sysStep, initSys, TimerManager.startTimer, TimerManager.endTimer,
    Background.startTimer, Background.clearTimer, Background.pauseTimer,
    StorageManager.addRecord, optToNum, jsOrInt, hT0]

/-- C2 counterexample: in the run start at instant 1, one display-refresh tick
at instant 30000, stop at instant 30002 — a run with no intervening pause — the
committed record's duration is 0 minutes, not `round((T1 − T0)/60000) = 1`:
the tick overwrote `this.elapsedTime` with the (1-second-stale) value 29999, and
`endTimer` uses `this.elapsedTime || (endTime − startTime)`, so the stale
elapsed time wins over the exact `T1 − T0 = 30001`. -/
theorem stop_duration_formula_cex :
    (sysRun fmtNull "2024-01-01" "工作" initSys
        [(Ev.start, 1), (Ev.uiTick, 30000), (Ev.stop, 30002)]).ledger.map
      (fun r => r.duration) ≠ [Dur.num (jsRound (30002 - 1))] := by
  decide

/-- C2 amended: (a) in a run that starts at instant `T0 > 0` and stops at
`T1 ≥ T0` with no intervening event at all (no pause and also no display-refresh
tick, which would overwrite `elapsedTime` with a stale value), the committed
WorkRecord's duration is exactly `round((T1 − T0)/60000)` minutes; and (b) in
every run whatsoever over nonnegative, nondecreasing timestamps, every committed
WorkRecord carries a nonnegative integer duration. -/
theorem stop_duration_amended :
    (∀ (fmt : Int → String) (d ty : String) (T0 T1 : Int), 0 < T0 → T0 ≤ T1 →
      (sysRun fmt d ty initSys [(Ev.start, T0), (Ev.stop, T1)]).ledger.map
        (fun r => r.duration) = [Dur.num (jsRound (T1 - T0))]) ∧
    (∀ (fmt : Int → String) (d ty : String) (evs : List (Ev × Int)), TimesOK 0 evs →
      ∀ r ∈ (sysRun fmt d ty initSys evs).ledger,
        ∃ k, r.duration = Dur.num k ∧ 0 ≤ k) := by
  constructor
  · intro fmt d ty T0 T1 h0 _h01
    exact startStop_run_duration fmt d ty T0 T1 h0
  · intro fmt d ty evs hok r hr
    obtain ⟨u, hu, hinv⟩ := sysRun_inv fmt d ty evs initSys 0 le_rfl sysInv_init hok
    exact hinv.2.2.2.2 r hr

/-- Witness for the amended C2: a concrete plain start–stop session committing
`round(60999/60000) = 1` minute, and a concrete run with a tick whose committed
duration is a nonnegative integer. -/
theorem stop_duration_amended_witness :
    ((sysRun fmtNull "2024-01-01" "工作" initSys [(Ev.start, 1), (Ev.stop, 61000)]).ledger.map
        (fun r => r.duration) = [Dur.num (jsRound (61000 - 1))]) ∧
      ∀ r ∈ (sysRun fmtNull "2024-01-01" "工作" initSys
          [(Ev.start, 5), (Ev.uiTick, 700), (Ev.stop, 1000)]).ledger,
        ∃ k, r.duration = Dur.num k ∧ 0 ≤ k :=
  ⟨stop_duration_amended.1 fmtNull "2024-01-01" "工作" 1 61000 (by decide) (by decide),
   stop_duration_amended.2 fmtNull "2024-01-01" "工作"
     [(Ev.start, 5), (Ev.uiTick, 700), (Ev.stop, 1000)] ⟨by decide, by decide, by decide, trivial⟩⟩
